import Mathlib

/-!
Verification of the DeerHacks26 focus/pomodoro backend core
(`Backend/app/routes/breaks.py` and `Backend/app/routes/stress.py`).

Shallow embedding conventions:
* UTC instants are modelled as `ℤ` (seconds); Python `timedelta` comparisons
  become integer comparisons in seconds.
* Focus/stress/confidence scores (Python floats in `[0, 1]`) are modelled
  as `ℚ`.
* Each MongoDB collection is a `List` of documents; `find_one` with an
  ascending sort is a minimum-by-key selection, `update_one` rewrites the
  first matching document, and `matched_count == 0` corresponds to the
  "no element satisfies the filter" case.
* Fresh UUIDs are passed in as explicit `String` arguments.
* Route-level "missing field" guards (HTTP 400 on an absent id) are
  transport boilerplate outside the modelled core; ids are given as plain
  `String`s.  A value that the Python `float(...)` call would reject is modelled
  as `none : Option ℚ`.
-/

/-- Error kinds of the HTTP layer: 404, 409, 400. -/
inductive ApiError where
  | notFound
  | conflict
  | invalidArgument
  deriving DecidableEq, Repr

/-- A `pomodoro_sessions` document (breaks.py `start_pomodoro`). -/
structure PomodoroSession where
  sessionId : String
  userId : String
  focusMinutes : ℤ
  breakMinutes : ℤ
  cycles : ℤ
  startedAt : ℤ
  endedAt : Option ℤ
  status : String
  deriving DecidableEq, Repr

/-- The phase-relevant part of the `_status_from_session` response. -/
structure PomodoroStatus where
  phase : String
  cycleIndex : ℤ
  secondsRemaining : ℤ
  message : String
  deriving DecidableEq, Repr

/-- breaks.py `_status_from_session`: derives the current phase of a
pomodoro session purely from its parameters and the reference time.
Python `//` and `%` are floor division and floor modulus, hence
`Int.fdiv` / `Int.fmod`. -/
def statusFromSession (session : PomodoroSession) (referenceTime : ℤ) :
    PomodoroStatus :=
  let elapsedSeconds : ℤ := max (referenceTime - session.startedAt) 0
  let focusSeconds : ℤ := session.focusMinutes * 60
  let breakSeconds : ℤ := session.breakMinutes * 60
  let cycles : ℤ := max session.cycles 1
  let cycleSeconds : ℤ := focusSeconds + breakSeconds
  let totalSeconds : ℤ := cycleSeconds * cycles - breakSeconds
  if totalSeconds ≤ elapsedSeconds then
    { phase := "completed", cycleIndex := cycles, secondsRemaining := 0,
      message := "Session complete" }
  else
    let cycleIndex : ℤ := min (elapsedSeconds.fdiv cycleSeconds + 1) cycles
    let inCycleSecond : ℤ := elapsedSeconds.fmod cycleSeconds
    if inCycleSecond < focusSeconds then
      { phase := "focus", cycleIndex := cycleIndex,
        secondsRemaining := focusSeconds - inCycleSecond,
        message := "Focus now" }
    else
      { phase := "break", cycleIndex := cycleIndex,
        secondsRemaining := cycleSeconds - inCycleSecond,
        message := "Take a break" }

/-- A `focus_sessions` document (stress.py `start_focus_session`). -/
structure FocusSession where
  sessionId : String
  userId : String
  startedAt : ℤ
  endedAt : Option ℤ
  status : String
  studyLabel : String
  allowPromptedBreaks : Bool
  signalSource : String
  deriving DecidableEq, Repr

/-- A `focus_samples` document (stress.py `ingest_focus_sample`).  The
opaque `raw_metrics` JSON bag is not modelled: no operation reads it. -/
structure FocusSample where
  sampleId : String
  sessionId : String
  userId : String
  capturedAt : ℤ
  focusScore : ℚ
  stressScore : ℚ
  confidence : ℚ
  signalSource : String
  deriving DecidableEq, Repr

/-- Display payload attached to a break prompt. -/
structure PromptPayload where
  title : String
  message : String
  screen : String
  deriving DecidableEq, Repr

/-- A `break_prompts` document (stress.py `_maybe_queue_break_prompt`).
The `acknowledged` field is absent (`none`) until an acknowledgement
call sets it. -/
structure BreakPrompt where
  promptId : String
  userId : String
  sessionId : String
  type : String
  reason : String
  createdAt : ℤ
  resolvedAt : Option ℤ
  acknowledged : Option Bool
  payload : PromptPayload
  deriving DecidableEq, Repr

/-- Aggregate report produced by stress.py `_build_report`. -/
structure GraphPoint where
  timestamp : ℤ
  focusScore : ℚ
  stressScore : ℚ
  deriving DecidableEq, Repr

structure Report where
  sampleCount : ℕ
  averageFocus : ℚ
  averageStress : ℚ
  peakStress : ℚ
  lowestFocus : ℚ
  graphPoints : List GraphPoint
  deriving DecidableEq, Repr

/-- A `focus_reports` document (stress.py `end_focus_session` upsert). -/
structure FocusReportDoc where
  sessionId : String
  userId : String
  generatedAt : ℤ
  report : Report
  deriving DecidableEq, Repr

/-- The MongoDB database: one list per collection used by the core. -/
structure DB where
  focusSessions : List FocusSession
  focusSamples : List FocusSample
  breakPrompts : List BreakPrompt
  pomodoroSessions : List PomodoroSession
  focusReports : List FocusReportDoc
  deriving DecidableEq, Repr

/-! ### Store primitives

`update_one` rewrites the first document matching the filter;
`find_one` with `sort=[(key, 1)]` returns the minimum-by-key matching
document (first such document in insertion order on ties, matching a
stable scan). -/

/-- Rewrite the first element satisfying `p` by `f`; leave the list
unchanged when nothing matches (`matched_count == 0`). -/
def updateOne (p : α → Bool) (f : α → α) : List α → List α
  | [] => []
  | x :: xs => if p x then f x :: xs else x :: updateOne p f xs

/-- Model of `find_one(filter, sort=[(key, 1)])`: the matching element with the
least key, earliest in the list on ties. -/
def findMinByKey (p : α → Bool) (key : α → ℤ) (l : List α) : Option α :=
  (l.filter p).foldl
    (fun acc x =>
      match acc with
      | none => some x
      | some a => if key x < key a then some x else some a)
    none

/-! ### stress.py constants and the prompt engine -/

def HIGH_STRESS_THRESHOLD : ℚ := 3 / 4

def PROMPT_AFTER_MINUTES : ℤ := 10

/-- Filter of the sliding-window query in `_maybe_queue_break_prompt`:
same session, captured within the trailing window, stress at or above
the high-stress threshold. -/
def highStressInWindow (sessionId : String) (highStressStart : ℤ)
    (s : FocusSample) : Bool :=
  s.sessionId == sessionId && highStressStart ≤ s.capturedAt &&
    HIGH_STRESS_THRESHOLD ≤ s.stressScore

/-- Filter of the dedup query: unresolved prompt of the given type for
the (owner, session) pair. -/
def unresolvedPromptOfType (userId sessionId ty : String)
    (p : BreakPrompt) : Bool :=
  p.userId == userId && p.sessionId == sessionId &&
    p.resolvedAt == none && p.type == ty

/-- The `break_prompts` document inserted by
`_maybe_queue_break_prompt` when the trigger fires. -/
def newHighStressPrompt (newPromptId userId sessionId : String)
    (capturedAt : ℤ) : BreakPrompt :=
  { promptId := newPromptId
    userId := userId
    sessionId := sessionId
    type := "HIGH_STRESS_BREAK"
    reason := "High stress detected for 10+ minutes"
    createdAt := capturedAt
    resolvedAt := none
    acknowledged := none
    payload :=
      { title := "Break time"
        message := "Your stress has stayed high. Take a short break."
        screen := "BREAK_PROMPT" } }

/-- stress.py `_maybe_queue_break_prompt`.  `newPromptId` stands for the
fresh `uuid4()`. -/
def maybeQueueBreakPrompt (db : DB) (session : FocusSession)
    (userId : String) (capturedAt : ℤ) (newPromptId : String) : DB :=
  if !session.allowPromptedBreaks then db
  else
    let highStressStart := capturedAt - PROMPT_AFTER_MINUTES * 60
    match findMinByKey
        (highStressInWindow session.sessionId highStressStart)
        (fun s => s.capturedAt) db.focusSamples with
    | none => db
    | some earliestHighStress =>
      if capturedAt - earliestHighStress.capturedAt <
          PROMPT_AFTER_MINUTES * 60 then db
      else
        match db.breakPrompts.find?
            (unresolvedPromptOfType userId session.sessionId
              "HIGH_STRESS_BREAK") with
        | some _ => db
        | none =>
          { db with breakPrompts := db.breakPrompts ++
              [newHighStressPrompt newPromptId userId session.sessionId
                capturedAt] }

/-- Number of unresolved prompts of the given type for an
(owner, session) pair — the quantity the dedup invariant bounds. -/
def unresolvedCount (db : DB) (userId sessionId ty : String) : ℕ :=
  (db.breakPrompts.filter (unresolvedPromptOfType userId sessionId ty)).length

/-- stress.py `ingest_focus_sample` (`POST /sample`).  `focusScore` /
`stressScore` are `none` when the Python `float(...)` call would raise
(`TypeError`/`ValueError`, the non-numeric case).  `sampleId` and
`newPromptId` stand for the fresh `uuid4()` values. -/
def ingestFocusSample (db : DB) (sessionId : String)
    (focusScore stressScore : Option ℚ) (capturedAt : ℤ)
    (confidence : ℚ) (rawSignalSource : Option String)
    (sampleId newPromptId : String) : Except ApiError DB :=
  match db.focusSessions.find? (fun s => s.sessionId == sessionId) with
  | none => .error .notFound
  | some session =>
    if session.status ≠ "active" then .error .conflict
    else
      match focusScore, stressScore with
      | some focus, some stress =>
        if ¬(0 ≤ focus ∧ focus ≤ 1) ∨ ¬(0 ≤ stress ∧ stress ≤ 1) then
          .error .invalidArgument
        else
          let sample : FocusSample :=
            { sampleId := sampleId
              sessionId := sessionId
              userId := session.userId
              capturedAt := capturedAt
              focusScore := focus
              stressScore := stress
              confidence := confidence
              signalSource := rawSignalSource.getD session.signalSource }
          let db₁ := { db with focusSamples := db.focusSamples ++ [sample] }
          .ok (maybeQueueBreakPrompt db₁ session session.userId capturedAt
                newPromptId)
      | _, _ => .error .invalidArgument

/-! ### stress.py report aggregation -/

/-- Round-half-to-even on ℚ, the semantics of the Python builtin
`round`. -/
def roundHalfEven (q : ℚ) : ℤ :=
  let f := ⌊q⌋
  let r := q - (f : ℚ)
  if r < 1 / 2 then f
  else if 1 / 2 < r then f + 1
  else if f % 2 = 0 then f else f + 1

/-- Python `round(x, 3)`. -/
def round3 (q : ℚ) : ℚ := (roundHalfEven (q * 1000) : ℚ) / 1000

/-- Maximum of a nonempty collection given as head and tail
(Python `max(values)`). -/
def maxOf (x : ℚ) (xs : List ℚ) : ℚ := xs.foldl max x

/-- Minimum of a nonempty collection (Python `min(values)`). -/
def minOf (x : ℚ) (xs : List ℚ) : ℚ := xs.foldl min x

/-- stress.py `_build_report`: pure reduction of the ordered
samples of a session to summary statistics plus the plotting series. -/
def buildReport : List FocusSample → Report
  | [] =>
    { sampleCount := 0, averageFocus := 0, averageStress := 0,
      peakStress := 0, lowestFocus := 0, graphPoints := [] }
  | s :: rest =>
    let samples := s :: rest
    let focusValues := samples.map (·.focusScore)
    let stressValues := samples.map (·.stressScore)
    { sampleCount := samples.length
      averageFocus := round3 (focusValues.sum / (samples.length : ℚ))
      averageStress := round3 (stressValues.sum / (samples.length : ℚ))
      peakStress := round3 (maxOf s.stressScore (rest.map (·.stressScore)))
      lowestFocus := round3 (minOf s.focusScore (rest.map (·.focusScore)))
      graphPoints := samples.map fun x =>
        { timestamp := x.capturedAt, focusScore := x.focusScore,
          stressScore := x.stressScore } }

/-- Stable insertion of a sample into a list sorted by capture time
ascending. -/
def insertByCapturedAt (s : FocusSample) :
    List FocusSample → List FocusSample
  | [] => [s]
  | x :: xs =>
    if s.capturedAt < x.capturedAt then s :: x :: xs
    else x :: insertByCapturedAt s xs

/-- Model of `find(filter, sort=[("captured_at", 1)])`: the matching samples in
ascending capture-time order (stable sort). -/
def sortByCapturedAt (l : List FocusSample) : List FocusSample :=
  l.foldr insertByCapturedAt []

/-- stress.py `end_focus_session` (`POST /session/end`): re-aggregates
the samples of the session, marks the session completed and upserts the
report document keyed by session id. -/
def endFocusSession (db : DB) (sessionId : String) (endedAt : ℤ) :
    Except ApiError (DB × Report) :=
  match db.focusSessions.find? (fun s => s.sessionId == sessionId) with
  | none => .error .notFound
  | some session =>
    let samples := sortByCapturedAt
      (db.focusSamples.filter (fun s => s.sessionId == sessionId))
    let report := buildReport samples
    let reportDoc : FocusReportDoc :=
      { sessionId := sessionId, userId := session.userId,
        generatedAt := endedAt, report := report }
    let sessions := updateOne (fun s => s.sessionId == sessionId)
      (fun s => { s with status := "completed", endedAt := some endedAt })
      db.focusSessions
    let reports :=
      if db.focusReports.any (fun d => d.sessionId == sessionId) then
        updateOne (fun d => d.sessionId == sessionId) (fun _ => reportDoc)
          db.focusReports
      else db.focusReports ++ [reportDoc]
    .ok ({ db with focusSessions := sessions, focusReports := reports },
      report)

/-! ### breaks.py prompt polling / acknowledgement and pomodoro ops -/

/-- breaks.py `poll_break_prompt` (`GET /prompt/poll`): the oldest
unresolved prompt for the owner; read-only. -/
def pollBreakPrompt (db : DB) (userId : String) : Option BreakPrompt :=
  findMinByKey (fun p => p.userId == userId && p.resolvedAt == none)
    (fun p => p.createdAt) db.breakPrompts

/-- breaks.py `acknowledge_break_prompt` (`POST /prompt/ack`): resolves
the unresolved prompt with the given id; 404 when the conditional
update matches nothing. -/
def acknowledgeBreakPrompt (db : DB) (promptId : String) (resolvedAt : ℤ)
    (acknowledged : Bool) : Except ApiError DB :=
  if db.breakPrompts.any
      (fun p => p.promptId == promptId && p.resolvedAt == none) then
    let prompts :=
      updateOne (fun p => p.promptId == promptId && p.resolvedAt == none)
        (fun p => { p with resolvedAt := some resolvedAt,
                           acknowledged := some acknowledged })
        db.breakPrompts
    .ok { db with breakPrompts := prompts }
  else .error .notFound

/-- breaks.py `stop_pomodoro` (`POST /pomodoro/stop`): conditional
update keyed by id *and* status=active; 404 when it matches nothing. -/
def stopPomodoro (db : DB) (sessionId : String) (endedAt : ℤ) :
    Except ApiError DB :=
  if db.pomodoroSessions.any
      (fun s => s.sessionId == sessionId && s.status == "active") then
    let sessions :=
      updateOne (fun s => s.sessionId == sessionId && s.status == "active")
        (fun s => { s with status := "cancelled", endedAt := some endedAt })
        db.pomodoroSessions
    .ok { db with pomodoroSessions := sessions }
  else .error .notFound

/-- breaks.py `get_pomodoro_status` (`GET /pomodoro/status`): derives
the phase and lazily transitions the stored status to completed when
the derived phase is completed and the stored status is not. -/
def getPomodoroStatus (db : DB) (sessionId : String) (now : ℤ) :
    Except ApiError (PomodoroStatus × DB) :=
  match db.pomodoroSessions.find? (fun s => s.sessionId == sessionId) with
  | none => .error .notFound
  | some session =>
    let status := statusFromSession session now
    if status.phase = "completed" ∧ session.status ≠ "completed" then
      let sessions :=
        updateOne (fun s => s.sessionId == sessionId)
          (fun s => { s with status := "completed", endedAt := some now })
          db.pomodoroSessions
      .ok (status, { db with pomodoroSessions := sessions })
    else .ok (status, db)

/-! ## Lemmas about the store primitives -/

theorem updateOne_of_all_not {p : α → Bool} {f : α → α} {l : List α}
    (h : ∀ x ∈ l, p x = false) : updateOne p f l = l := by
  induction l with
  | nil => rfl
  | cons x xs ih =>
    rw [updateOne, if_neg, ih fun y hy => h y (List.mem_cons_of_mem x hy)]
    simp [h x (List.mem_cons_self x xs)]

theorem updateOne_decomposition {p : α → Bool} (f : α → α) {l : List α}
    (h : ∃ x ∈ l, p x = true) :
    ∃ l₁ x l₂, l = l₁ ++ x :: l₂ ∧ (∀ y ∈ l₁, p y = false) ∧ p x = true ∧
      updateOne p f l = l₁ ++ f x :: l₂ := by
  induction l with
  | nil => simp at h
  | cons a as ih =>
    by_cases ha : p a = true
    · exact ⟨[], a, as, rfl, by simp, ha, by simp [updateOne, ha]⟩
    · obtain ⟨x, hx, hpx⟩ := h
      rcases List.mem_cons.mp hx with rfl | hx
      · exact absurd hpx ha
      · obtain ⟨l₁, x, l₂, hsplit, hall, hpx, hupd⟩ := ih ⟨x, hx, hpx⟩
        refine ⟨a :: l₁, x, l₂, by simp [hsplit], ?_, hpx, ?_⟩
        · intro y hy
          rcases List.mem_cons.mp hy with rfl | hy
          · exact eq_false_of_ne_true ha
          · exact hall y hy
        · simp [updateOne, ha, hupd]

theorem findMinByKey_eq_none {p : α → Bool} {key : α → ℤ} {l : List α}
    (h : ∀ x ∈ l, p x = false) : findMinByKey p key l = none := by
  unfold findMinByKey
  rw [List.filter_eq_nil_iff.mpr fun x hx => by simp [h x hx]]
  rfl

/-! ## Phase calculator -/

theorem statusFromSession_spec (sid uid : String) (f b c T now : ℤ)
    (hf : 0 < f) (hb : 0 < b) (hc : 1 ≤ c) :
    ((f * 60 + b * 60) * c - b * 60 ≤ max (now - T) 0 →
      statusFromSession ⟨sid, uid, f, b, c, T, none, "active"⟩ now =
        ⟨"completed", c, 0, "Session complete"⟩) ∧
    (max (now - T) 0 < (f * 60 + b * 60) * c - b * 60 →
      (max (now - T) 0 % (f * 60 + b * 60) < f * 60 →
        statusFromSession ⟨sid, uid, f, b, c, T, none, "active"⟩ now =
          ⟨"focus", min (max (now - T) 0 / (f * 60 + b * 60) + 1) c,
            f * 60 - max (now - T) 0 % (f * 60 + b * 60), "Focus now"⟩) ∧
      (f * 60 ≤ max (now - T) 0 % (f * 60 + b * 60) →
        statusFromSession ⟨sid, uid, f, b, c, T, none, "active"⟩ now =
          ⟨"break", min (max (now - T) 0 / (f * 60 + b * 60) + 1) c,
            f * 60 + b * 60 - max (now - T) 0 % (f * 60 + b * 60),
            "Take a break"⟩)) := by
  have hcyc : max c 1 = c := max_eq_left hc
  have hcs : (0 : ℤ) ≤ f * 60 + b * 60 := by omega
  simp only [statusFromSession, hcyc, Int.fdiv_eq_ediv _ hcs,
    Int.fmod_eq_emod _ hcs]
  refine ⟨fun h => ?_, fun h => ⟨fun hin => ?_, fun hin => ?_⟩⟩
  · rw [if_pos h]
  · rw [if_neg (by omega), if_pos hin]
  · rw [if_neg (by omega), if_neg (by omega)]

/-- C1 (phase calculation): for a pomodoro session with focusMinutes
`f > 0`, breakMinutes `b > 0`, cycles `c ≥ 1` and start time `T`, and a
query time `now`, with `elapsed = max (now − T) 0`, `focusSec = f*60`,
`breakSec = b*60`, `cycleSec = focusSec + breakSec` and
`totalSec = cycleSec*c − breakSec`: once `elapsed ≥ totalSec` the phase
is completed with cycleIndex `c` and 0 seconds remaining; otherwise
cycleIndex is `min (elapsed div cycleSec + 1) c`, and with
`inCycle = elapsed mod cycleSec` the phase is focus with
`focusSec − inCycle` remaining when `inCycle < focusSec`, else break
with `cycleSec − inCycle` remaining.  For f=25, b=5, c=4: at T+24:59
the phase is focus in cycle 1 with 1 second remaining, at T+25:00 break
with 300 seconds remaining, and at T+115:00 completed. -/
theorem claim_C1_phase_calculation (sid uid : String) (f b c T now : ℤ)
    (hf : 0 < f) (hb : 0 < b) (hc : 1 ≤ c) :
    (((f * 60 + b * 60) * c - b * 60 ≤ max (now - T) 0 →
      statusFromSession ⟨sid, uid, f, b, c, T, none, "active"⟩ now =
        ⟨"completed", c, 0, "Session complete"⟩) ∧
    (max (now - T) 0 < (f * 60 + b * 60) * c - b * 60 →
      (max (now - T) 0 % (f * 60 + b * 60) < f * 60 →
        statusFromSession ⟨sid, uid, f, b, c, T, none, "active"⟩ now =
          ⟨"focus", min (max (now - T) 0 / (f * 60 + b * 60) + 1) c,
            f * 60 - max (now - T) 0 % (f * 60 + b * 60), "Focus now"⟩) ∧
      (f * 60 ≤ max (now - T) 0 % (f * 60 + b * 60) →
        statusFromSession ⟨sid, uid, f, b, c, T, none, "active"⟩ now =
          ⟨"break", min (max (now - T) 0 / (f * 60 + b * 60) + 1) c,
            f * 60 + b * 60 - max (now - T) 0 % (f * 60 + b * 60),
            "Take a break"⟩))) ∧
    statusFromSession ⟨sid, uid, 25, 5, 4, T, none, "active"⟩ (T + 1499) =
      ⟨"focus", 1, 1, "Focus now"⟩ ∧
    statusFromSession ⟨sid, uid, 25, 5, 4, T, none, "active"⟩ (T + 1500) =
      ⟨"break", 1, 300, "Take a break"⟩ ∧
    statusFromSession ⟨sid, uid, 25, 5, 4, T, none, "active"⟩ (T + 6900) =
      ⟨"completed", 4, 0, "Session complete"⟩ := by
  refine ⟨statusFromSession_spec sid uid f b c T now hf hb hc, ?_, ?_, ?_⟩
  · simp only [statusFromSession]
    rw [show T + 1499 - T = (1499 : ℤ) by omega]
    decide
  · simp only [statusFromSession]
    rw [show T + 1500 - T = (1500 : ℤ) by omega]
    decide
  · simp only [statusFromSession]
    rw [show T + 6900 - T = (6900 : ℤ) by omega]
    decide

theorem claim_C1_phase_calculation_witness :
    (0 : ℤ) < 25 ∧ (0 : ℤ) < 5 ∧ (1 : ℤ) ≤ 4 ∧
    statusFromSession ⟨"s", "u", 25, 5, 4, 0, none, "active"⟩ (0 + 1499) =
      ⟨"focus", 1, 1, "Focus now"⟩ :=
  ⟨by decide, by decide, by decide,
    (claim_C1_phase_calculation "s" "u" 25 5 4 0 1499 (by decide)
      (by decide) (by decide)).2.1⟩

theorem find?_updateOne {p : α → Bool} {f : α → α} {l : List α} {x : α}
    (h : l.find? p = some x) (hfx : p (f x) = true) :
    (updateOne p f l).find? p = some (f x) := by
  induction l with
  | nil => simp at h
  | cons a as ih =>
    by_cases ha : p a = true
    · rw [List.find?_cons_of_pos _ ha] at h
      injection h with h
      subst h
      simp [updateOne, ha, List.find?_cons_of_pos _ hfx]
    · rw [List.find?_cons_of_neg _ (by simpa using ha)] at h
      simp [updateOne, ha, List.find?_cons_of_neg, ih h]

theorem statusFromSession_completed (s : PomodoroSession) (now : ℤ)
    (hdone : (s.focusMinutes * 60 + s.breakMinutes * 60) * max s.cycles 1 -
      s.breakMinutes * 60 ≤ max (now - s.startedAt) 0) :
    statusFromSession s now =
      ⟨"completed", max s.cycles 1, 0, "Session complete"⟩ := by
  simp only [statusFromSession]
  rw [if_pos hdone]

/-- C9 (lazy completion is idempotent): once a pomodoro session's
elapsed time has reached `totalSec`, every status read (at the same or
any later time) yields phase=completed with 0 seconds remaining, and
after the read that first transitions the stored status to completed,
repeated reads return the stored state unchanged. -/
theorem claim_C9_lazy_completion_idempotent (db : DB) (sid : String)
    (session : PomodoroSession) (now : ℤ)
    (hfind : db.pomodoroSessions.find? (fun s => s.sessionId == sid) =
      some session)
    (hdone : (session.focusMinutes * 60 + session.breakMinutes * 60) *
      max session.cycles 1 - session.breakMinutes * 60 ≤
      max (now - session.startedAt) 0) :
    (∀ now', now ≤ now' → ∃ db',
      getPomodoroStatus db sid now' =
        .ok (⟨"completed", max session.cycles 1, 0, "Session complete"⟩,
          db')) ∧
    (∀ st db₁, getPomodoroStatus db sid now = .ok (st, db₁) →
      ∀ now'', now ≤ now'' →
        getPomodoroStatus db₁ sid now'' =
          .ok (⟨"completed", max session.cycles 1, 0, "Session complete"⟩,
            db₁)) := by
  have hmono : ∀ now', now ≤ now' →
      (session.focusMinutes * 60 + session.breakMinutes * 60) *
        max session.cycles 1 - session.breakMinutes * 60 ≤
        max (now' - session.startedAt) 0 := by
    intro now' hle
    omega
  constructor
  · intro now' hle
    simp only [getPomodoroStatus, hfind,
      statusFromSession_completed session now' (hmono now' hle)]
    by_cases hstat : session.status = "completed"
    · rw [if_neg (by simp [hstat])]
      exact ⟨db, rfl⟩
    · rw [if_pos (by simp [hstat])]
      exact ⟨_, rfl⟩
  · intro st db₁ hread now'' hle
    simp only [getPomodoroStatus, hfind,
      statusFromSession_completed session now hdone] at hread
    by_cases hstat : session.status = "completed"
    · rw [if_neg (by simp [hstat])] at hread
      simp only [Except.ok.injEq, Prod.mk.injEq] at hread
      obtain ⟨-, hdb⟩ := hread
      subst hdb
      simp only [getPomodoroStatus, hfind,
        statusFromSession_completed session now'' (hmono now'' hle)]
      rw [if_neg (by simp [hstat])]
    · rw [if_pos (by simp [hstat])] at hread
      simp only [Except.ok.injEq, Prod.mk.injEq] at hread
      obtain ⟨-, hdb⟩ := hread
      subst hdb
      have hfx : (fun s : PomodoroSession => s.sessionId == sid)
          ({ session with status := "completed", endedAt := some now }) =
          true := by
        simpa using List.find?_some hfind
      have hfind' := find?_updateOne (f := fun s =>
        { s with status := "completed", endedAt := some now }) hfind hfx
      simp only [getPomodoroStatus, hfind']
      have hdone'' : (session.focusMinutes * 60 + session.breakMinutes * 60) *
          max session.cycles 1 - session.breakMinutes * 60 ≤
          max (now'' - session.startedAt) 0 := hmono now'' hle
      rw [statusFromSession_completed _ now'' (by simpa using hdone'')]
      rw [if_neg (by simp)]

theorem claim_C9_lazy_completion_idempotent_witness :
    (DB.mk [] [] [] [⟨"p", "u", 25, 5, 4, 0, none, "active"⟩]
        []).pomodoroSessions.find? (fun s => s.sessionId == "p") =
      some ⟨"p", "u", 25, 5, 4, 0, none, "active"⟩ ∧
    ((25 * 60 + 5 * 60) * max (4 : ℤ) 1 - 5 * 60 ≤
      max ((6900 : ℤ) - 0) 0) ∧
    ((∀ now', (6900 : ℤ) ≤ now' → ∃ db',
      getPomodoroStatus
          (DB.mk [] [] [] [⟨"p", "u", 25, 5, 4, 0, none, "active"⟩] [])
          "p" now' =
        .ok (⟨"completed", max (4 : ℤ) 1, 0, "Session complete"⟩, db')) ∧
    (∀ st db₁,
      getPomodoroStatus
          (DB.mk [] [] [] [⟨"p", "u", 25, 5, 4, 0, none, "active"⟩] [])
          "p" 6900 = .ok (st, db₁) →
      ∀ now'', (6900 : ℤ) ≤ now'' →
        getPomodoroStatus db₁ "p" now'' =
          .ok (⟨"completed", max (4 : ℤ) 1, 0, "Session complete"⟩,
            db₁))) :=
  ⟨by decide, by decide,
    claim_C9_lazy_completion_idempotent
      (DB.mk [] [] [] [⟨"p", "u", 25, 5, 4, 0, none, "active"⟩] []) "p"
      ⟨"p", "u", 25, 5, 4, 0, none, "active"⟩ 6900 (by decide) (by decide)⟩

/-- C10 (implicit; cancelled is not terminal): for a stored pomodoro
session with status "cancelled" whose elapsed time has reached
`totalSec`, a status read fires the lazy-completion side effect anyway:
it overwrites the stored status with "completed" and the stored
`ended_at` with the read time. -/
theorem claim_C10_cancelled_overwritten_by_lazy_completion (db : DB)
    (sid : String) (session : PomodoroSession) (now : ℤ)
    (hfind : db.pomodoroSessions.find? (fun s => s.sessionId == sid) =
      some session)
    (hcancelled : session.status = "cancelled")
    (hdone : (session.focusMinutes * 60 + session.breakMinutes * 60) *
      max session.cycles 1 - session.breakMinutes * 60 ≤
      max (now - session.startedAt) 0) :
    ∃ sessions',
      getPomodoroStatus db sid now =
        .ok (⟨"completed", max session.cycles 1, 0, "Session complete"⟩,
          { db with pomodoroSessions := sessions' }) ∧
      sessions'.find? (fun s => s.sessionId == sid) =
        some { session with status := "completed", endedAt := some now } := by
  simp only [getPomodoroStatus, hfind,
    statusFromSession_completed session now hdone]
  rw [if_pos (by simp [hcancelled])]
  refine ⟨_, rfl, ?_⟩
  exact find?_updateOne hfind (by simpa using List.find?_some hfind)

theorem claim_C10_cancelled_overwritten_witness :
    (DB.mk [] [] [] [⟨"p", "u", 25, 5, 4, 0, some 100, "cancelled"⟩]
        []).pomodoroSessions.find? (fun s => s.sessionId == "p") =
      some ⟨"p", "u", 25, 5, 4, 0, some 100, "cancelled"⟩ ∧
    (PomodoroSession.mk "p" "u" 25 5 4 0 (some 100) "cancelled").status =
      "cancelled" ∧
    ((25 * 60 + 5 * 60) * max (4 : ℤ) 1 - 5 * 60 ≤
      max ((6900 : ℤ) - 0) 0) ∧
    ∃ sessions',
      getPomodoroStatus
          (DB.mk [] [] [] [⟨"p", "u", 25, 5, 4, 0, some 100, "cancelled"⟩]
            []) "p" 6900 =
        .ok (⟨"completed", max (4 : ℤ) 1, 0, "Session complete"⟩,
          { DB.mk [] [] []
              [⟨"p", "u", 25, 5, 4, 0, some 100, "cancelled"⟩] [] with
            pomodoroSessions := sessions' }) ∧
      sessions'.find? (fun s => s.sessionId == "p") =
        some ⟨"p", "u", 25, 5, 4, 0, some 6900, "completed"⟩ :=
  ⟨by decide, by decide, by decide,
    claim_C10_cancelled_overwritten_by_lazy_completion
      (DB.mk [] [] [] [⟨"p", "u", 25, 5, 4, 0, some 100, "cancelled"⟩] [])
      "p" ⟨"p", "u", 25, 5, 4, 0, some 100, "cancelled"⟩ 6900
      (by decide) (by decide) (by decide)⟩

/-! ## Prompt engine lemmas -/

theorem maybeQueueBreakPrompt_cases (db : DB) (sess : FocusSession)
    (uid : String) (t : ℤ) (npid : String) :
    maybeQueueBreakPrompt db sess uid t npid = db ∨
    (maybeQueueBreakPrompt db sess uid t npid =
        { db with breakPrompts := db.breakPrompts ++
            [newHighStressPrompt npid uid sess.sessionId t] } ∧
      db.breakPrompts.find?
        (unresolvedPromptOfType uid sess.sessionId "HIGH_STRESS_BREAK") =
        none) := by
  simp only [maybeQueueBreakPrompt]
  repeat' split
  all_goals try exact Or.inl rfl
  all_goals exact Or.inr ⟨rfl, by assumption⟩

theorem maybeQueueBreakPrompt_other_collections (db : DB)
    (sess : FocusSession) (uid : String) (t : ℤ) (npid : String) :
    (maybeQueueBreakPrompt db sess uid t npid).focusSessions =
      db.focusSessions ∧
    (maybeQueueBreakPrompt db sess uid t npid).focusSamples =
      db.focusSamples ∧
    (maybeQueueBreakPrompt db sess uid t npid).pomodoroSessions =
      db.pomodoroSessions ∧
    (maybeQueueBreakPrompt db sess uid t npid).focusReports =
      db.focusReports := by
  rcases maybeQueueBreakPrompt_cases db sess uid t npid with h | ⟨h, -⟩ <;>
    rw [h] <;> exact ⟨rfl, rfl, rfl, rfl⟩

/-- C3 (dedup invariant): while an unresolved prompt of the
sustained-high-stress type exists for the (owner, session) pair, the
prompt engine leaves the state completely unchanged — no additional
prompt is created; and for every (owner, session, type) key, if at most
one unresolved prompt exists before an engine run, at most one exists
after it. -/
theorem claim_C3_dedup_invariant (db : DB) (sess : FocusSession)
    (uid : String) (t : ℤ) (npid : String) :
    ((∃ p ∈ db.breakPrompts,
        unresolvedPromptOfType uid sess.sessionId "HIGH_STRESS_BREAK" p =
          true) →
      maybeQueueBreakPrompt db sess uid t npid = db) ∧
    (∀ uid' sid' ty', unresolvedCount db uid' sid' ty' ≤ 1 →
      unresolvedCount (maybeQueueBreakPrompt db sess uid t npid) uid' sid'
        ty' ≤ 1) := by
  constructor
  · intro h
    obtain ⟨p, hp, hpt⟩ := h
    simp only [maybeQueueBreakPrompt]
    repeat' split
    all_goals try rfl
    rename_i heq
    rw [List.find?_eq_none] at heq
    exact absurd hpt (by simpa using heq p hp)
  · intro uid' sid' ty' hle
    rcases maybeQueueBreakPrompt_cases db sess uid t npid with h | ⟨h, hnone⟩
    · rw [h]
      exact hle
    · rw [h]
      unfold unresolvedCount at hle ⊢
      simp only [List.filter_append, List.length_append]
      by_cases hmatch : unresolvedPromptOfType uid' sid' ty'
          (newHighStressPrompt npid uid sess.sessionId t) = true
    
      · have hkey : uid = uid' ∧ sess.sessionId = sid' ∧
            "HIGH_STRESS_BREAK" = ty' := by
          simpa [unresolvedPromptOfType, newHighStressPrompt, and_assoc] using hmatch
        obtain ⟨rfl, rfl, rfl⟩ := hkey
        have hzero : (db.breakPrompts.filter
            (unresolvedPromptOfType uid sess.sessionId
              "HIGH_STRESS_BREAK")).length = 0 := by
          rw [List.length_eq_zero, List.filter_eq_nil_iff]
          rw [List.find?_eq_none] at hnone
          exact fun x hx => by simpa using hnone x hx
        simp [hzero, List.filter, hmatch]
      · simp only [List.filter, hmatch]
        simpa using hle

theorem claim_C3_dedup_invariant_witness :
    maybeQueueBreakPrompt
        (DB.mk [] [] [newHighStressPrompt "pr1" "u" "fs" 600] [] [])
        ⟨"fs", "u", 0, none, "active", "Study Session", true, "presage"⟩
        "u" 601 "pr2" =
      DB.mk [] [] [newHighStressPrompt "pr1" "u" "fs" 600] [] [] :=
  (claim_C3_dedup_invariant _ _ "u" 601 "pr2").1 (by decide)

/-- C5 (acknowledge resolves exactly once): the acknowledgement call
fails with NotFound exactly when no unresolved prompt with the given id
exists (in particular when the prompt was already resolved); otherwise
it sets the resolution time and the acknowledgement flag on that prompt
and leaves every other prompt untouched.  Moreover the prompt engine
never resolves a prompt: every prompt it leaves behind is either an
untouched pre-existing one or unresolved, so acknowledgement is the
sole resolving transition among the modelled operations. -/
theorem claim_C5_acknowledge_resolves_exactly_once (db : DB)
    (pid : String) (resolvedAt : ℤ) (ackFlag : Bool) :
    (acknowledgeBreakPrompt db pid resolvedAt ackFlag =
        .error .notFound ↔
      ∀ p ∈ db.breakPrompts, ¬(p.promptId = pid ∧ p.resolvedAt = none)) ∧
    ((∃ p ∈ db.breakPrompts, p.promptId = pid ∧ p.resolvedAt = none) →
      ∃ l₁ p l₂,
        db.breakPrompts = l₁ ++ p :: l₂ ∧
        p.promptId = pid ∧ p.resolvedAt = none ∧
        (∀ q ∈ l₁, ¬(q.promptId = pid ∧ q.resolvedAt = none)) ∧
        acknowledgeBreakPrompt db pid resolvedAt ackFlag =
          .ok { db with breakPrompts := l₁ ++
            { p with resolvedAt := some resolvedAt,
                     acknowledged := some ackFlag } :: l₂ }) ∧
    (∀ sess uid t npid,
      ∀ q ∈ (maybeQueueBreakPrompt db sess uid t npid).breakPrompts,
        q ∈ db.breakPrompts ∨ q.resolvedAt = none) := by
  have hbridge : ∀ p : BreakPrompt,
      ((p.promptId == pid && p.resolvedAt == none) = true) ↔
        (p.promptId = pid ∧ p.resolvedAt = none) := by
    intro p
    simp
  refine ⟨?_, ?_, ?_⟩
  · by_cases hany : db.breakPrompts.any
        (fun p => p.promptId == pid && p.resolvedAt == none) = true
    · simp only [acknowledgeBreakPrompt]
      rw [if_pos hany]
      constructor
      · intro h
        exact absurd h (by simp)
      · intro hall
        obtain ⟨p, hp, hpred⟩ := List.any_eq_true.mp hany
        exact ((hall p hp) ((hbridge p).mp hpred)).elim
    · simp only [acknowledgeBreakPrompt]
      rw [if_neg hany]
      have hall := List.any_eq_false.mp (eq_false_of_ne_true hany)
      constructor
      · intro _ p hp hcond
        exact hall p hp ((hbridge p).mpr hcond)
      · intro _
        rfl
  · intro hex
    obtain ⟨p, hp, hcond⟩ := hex
    obtain ⟨l₁, x, l₂, hsplit, hl₁, hpx, hupd⟩ :=
      updateOne_decomposition
        (p := fun q => q.promptId == pid && q.resolvedAt == none)
        (f := fun q => { q with resolvedAt := some resolvedAt,
                                acknowledged := some ackFlag })
        ⟨p, hp, (hbridge p).mpr hcond⟩
    have hany : db.breakPrompts.any
        (fun q => q.promptId == pid && q.resolvedAt == none) = true :=
      List.any_eq_true.mpr ⟨p, hp, (hbridge p).mpr hcond⟩
    refine ⟨l₁, x, l₂, hsplit, ((hbridge x).mp hpx).1,
      ((hbridge x).mp hpx).2, ?_, ?_⟩
    · intro q hq hc
      exact absurd ((hbridge q).mpr hc) (by simp [hl₁ q hq])
    · simp only [acknowledgeBreakPrompt]
      rw [if_pos hany, hupd]
  · intro sess uid t npid q hq
    rcases maybeQueueBreakPrompt_cases db sess uid t npid with h | ⟨h, -⟩
    · rw [h] at hq
      exact Or.inl hq
    · rw [h] at hq
      rcases List.mem_append.mp hq with hq | hq
      · exact Or.inl hq
      · right
        rw [List.mem_singleton.mp hq]
        rfl

theorem claim_C5_acknowledge_witness :
    (∃ p ∈ (DB.mk [] [] [newHighStressPrompt "pr1" "u" "fs" 600] []
        []).breakPrompts, p.promptId = "pr1" ∧ p.resolvedAt = none) ∧
    ∃ l₁ p l₂,
      (DB.mk [] [] [newHighStressPrompt "pr1" "u" "fs" 600] []
          []).breakPrompts = l₁ ++ p :: l₂ ∧
      p.promptId = "pr1" ∧ p.resolvedAt = none ∧
      (∀ q ∈ l₁, ¬(q.promptId = "pr1" ∧ q.resolvedAt = none)) ∧
      acknowledgeBreakPrompt
          (DB.mk [] [] [newHighStressPrompt "pr1" "u" "fs" 600] [] [])
          "pr1" 700 true =
        .ok { DB.mk [] [] [newHighStressPrompt "pr1" "u" "fs" 600] [] []
            with breakPrompts := l₁ ++
          { p with resolvedAt := some 700,
                   acknowledged := some true } :: l₂ } :=
  ⟨by decide,
    (claim_C5_acknowledge_resolves_exactly_once
      (DB.mk [] [] [newHighStressPrompt "pr1" "u" "fs" 600] [] [])
      "pr1" 700 true).2.1 (by decide)⟩

/-- C8 (stop pomodoro): stopping fails with NotFound exactly when no
session with the given id currently has status "active"; when an
active session with that id exists, it transitions that (first such)
session from active to cancelled and sets its end time, leaving every
other stored session in place; in particular every stored session whose
status is not "active" (completed or cancelled) survives unmodified. -/
theorem claim_C8_stop_pomodoro_active_only (db : DB) (sid : String)
    (endedAt : ℤ) :
    (stopPomodoro db sid endedAt = .error .notFound ↔
      ∀ s ∈ db.pomodoroSessions, ¬(s.sessionId = sid ∧
        s.status = "active")) ∧
    ((∃ s ∈ db.pomodoroSessions, s.sessionId = sid ∧
        s.status = "active") →
      ∃ l₁ s l₂,
        db.pomodoroSessions = l₁ ++ s :: l₂ ∧
        s.sessionId = sid ∧ s.status = "active" ∧
        (∀ y ∈ l₁, ¬(y.sessionId = sid ∧ y.status = "active")) ∧
        stopPomodoro db sid endedAt = .ok { db with pomodoroSessions :=
          l₁ ++ { s with status := "cancelled",
                         endedAt := some endedAt } :: l₂ }) ∧
    (∀ db', stopPomodoro db sid endedAt = .ok db' →
      ∀ s ∈ db.pomodoroSessions, s.status ≠ "active" →
        s ∈ db'.pomodoroSessions) := by
  have hbridge : ∀ s : PomodoroSession,
      ((s.sessionId == sid && s.status == "active") = true) ↔
        (s.sessionId = sid ∧ s.status = "active") := by
    intro s
    simp
  refine ⟨?_, ?_, ?_⟩
  · by_cases hany : db.pomodoroSessions.any
        (fun s => s.sessionId == sid && s.status == "active") = true
    · simp only [stopPomodoro]
      rw [if_pos hany]
      constructor
      · intro h
        exact absurd h (by simp)
      · intro hall
        obtain ⟨s, hs, hpred⟩ := List.any_eq_true.mp hany
        exact ((hall s hs) ((hbridge s).mp hpred)).elim
    · simp only [stopPomodoro]
      rw [if_neg hany]
      have hall := List.any_eq_false.mp (eq_false_of_ne_true hany)
      constructor
      · intro _ s hs hcond
        exact hall s hs ((hbridge s).mpr hcond)
      · intro _
        rfl
  · intro hex
    obtain ⟨s, hs, hcond⟩ := hex
    obtain ⟨l₁, x, l₂, hsplit, hl₁, hpx, hupd⟩ :=
      updateOne_decomposition
        (p := fun s => s.sessionId == sid && s.status == "active")
        (f := fun s => { s with status := "cancelled",
                                endedAt := some endedAt })
        ⟨s, hs, (hbridge s).mpr hcond⟩
    have hany : db.pomodoroSessions.any
        (fun s => s.sessionId == sid && s.status == "active") = true :=
      List.any_eq_true.mpr ⟨s, hs, (hbridge s).mpr hcond⟩
    refine ⟨l₁, x, l₂, hsplit, ((hbridge x).mp hpx).1,
      ((hbridge x).mp hpx).2, ?_, ?_⟩
    · intro y hy hc
      exact absurd ((hbridge y).mpr hc) (by simp [hl₁ y hy])
    · simp only [stopPomodoro]
      rw [if_pos hany, hupd]
  · intro db' hok s hs hstat
    by_cases hany : db.pomodoroSessions.any
        (fun s => s.sessionId == sid && s.status == "active") = true
    · obtain ⟨w, hw, hwpred⟩ := List.any_eq_true.mp hany
      obtain ⟨l₁, x, l₂, hsplit, hl₁, hpx, hupd⟩ :=
        updateOne_decomposition
          (p := fun s => s.sessionId == sid && s.status == "active")
          (f := fun s => { s with status := "cancelled",
                                  endedAt := some endedAt })
          ⟨w, hw, hwpred⟩
      simp only [stopPomodoro] at hok
      rw [if_pos hany, hupd] at hok
      simp only [Except.ok.injEq] at hok
      subst hok
      rw [hsplit] at hs
      rcases List.mem_append.mp hs with hmem | hmem
      · exact List.mem_append.mpr (Or.inl hmem)
      · rcases List.mem_cons.mp hmem with rfl | hmem
        · exact absurd ((hbridge s).mp hpx).2 hstat
        · exact List.mem_append.mpr (Or.inr (List.mem_cons_of_mem _ hmem))
    · simp only [stopPomodoro] at hok
      rw [if_neg hany] at hok
      exact absurd hok (by simp)

theorem claim_C8_stop_pomodoro_witness :
    (∃ s ∈ (DB.mk [] [] []
        [⟨"p", "u", 25, 5, 4, 0, none, "active"⟩] []).pomodoroSessions,
      s.sessionId = "p" ∧ s.status = "active") ∧
    ∃ l₁ s l₂,
      (DB.mk [] [] [] [⟨"p", "u", 25, 5, 4, 0, none, "active"⟩]
          []).pomodoroSessions = l₁ ++ s :: l₂ ∧
      s.sessionId = "p" ∧ s.status = "active" ∧
      (∀ y ∈ l₁, ¬(y.sessionId = "p" ∧ y.status = "active")) ∧
      stopPomodoro
          (DB.mk [] [] [] [⟨"p", "u", 25, 5, 4, 0, none, "active"⟩] [])
          "p" 50 =
        .ok { DB.mk [] [] [] [⟨"p", "u", 25, 5, 4, 0, none, "active"⟩]
            [] with pomodoroSessions := l₁ ++
          { s with status := "cancelled", endedAt := some 50 } :: l₂ } :=
  ⟨by decide,
    (claim_C8_stop_pomodoro_active_only
      (DB.mk [] [] [] [⟨"p", "u", 25, 5, 4, 0, none, "active"⟩] [])
      "p" 50).2.1 (by decide)⟩

/-- C4 (ingest error contract): ingesting fails with NotFound when the
session id is unknown; with Conflict when the session exists but is not
active; with InvalidArgument when the focus or stress value is
non-numeric (`none`) or outside [0, 1]; otherwise it succeeds, appends
exactly the new sample to the store, and leaves sessions, pomodoro
sessions and reports untouched — success never depends on whether the
prompt engine raised a prompt. -/
theorem claim_C4_ingest_error_contract (db : DB) (sid : String)
    (focus stress : Option ℚ) (capturedAt : ℤ) (confidence : ℚ)
    (rawSource : Option String) (sampleId npid : String) :
    (db.focusSessions.find? (fun s => s.sessionId == sid) = none →
      ingestFocusSample db sid focus stress capturedAt confidence
        rawSource sampleId npid = .error .notFound) ∧
    (∀ session,
      db.focusSessions.find? (fun s => s.sessionId == sid) =
        some session →
      (session.status ≠ "active" →
        ingestFocusSample db sid focus stress capturedAt confidence
          rawSource sampleId npid = .error .conflict) ∧
      (session.status = "active" →
        ((focus = none ∨ stress = none) →
          ingestFocusSample db sid focus stress capturedAt confidence
            rawSource sampleId npid = .error .invalidArgument) ∧
        (∀ f st, focus = some f → stress = some st →
          ((¬(0 ≤ f ∧ f ≤ 1) ∨ ¬(0 ≤ st ∧ st ≤ 1)) →
            ingestFocusSample db sid focus stress capturedAt confidence
              rawSource sampleId npid = .error .invalidArgument) ∧
          (0 ≤ f ∧ f ≤ 1 → 0 ≤ st ∧ st ≤ 1 →
            ∃ db', ingestFocusSample db sid focus stress capturedAt
                confidence rawSource sampleId npid = .ok db' ∧
              db'.focusSamples = db.focusSamples ++
                [⟨sampleId, sid, session.userId, capturedAt, f, st,
                  confidence, rawSource.getD session.signalSource⟩] ∧
              db'.focusSessions = db.focusSessions ∧
              db'.pomodoroSessions = db.pomodoroSessions ∧
              db'.focusReports = db.focusReports)))) := by
  constructor
  · intro hfind
    simp only [ingestFocusSample, hfind]
  · intro session hfind
    constructor
    · intro hstat
      simp only [ingestFocusSample, hfind]
      rw [if_pos hstat]
    · intro hactive
      constructor
      · intro hnone
        simp only [ingestFocusSample, hfind]
        rw [if_neg (by simp [hactive])]
        rcases hnone with rfl | rfl
        · rfl
        · cases focus <;> rfl
      · intro f st hf hst
        subst hf
        subst hst
        constructor
        · intro hout
          simp only [ingestFocusSample, hfind]
          rw [if_neg (by simp [hactive]), if_pos hout]
        · intro hfr hsr
          simp only [ingestFocusSample, hfind]
          rw [if_neg (by simp [hactive]),
            if_neg (by push_neg; exact ⟨hfr, hsr⟩)]
          refine ⟨_, rfl, ?_, ?_, ?_, ?_⟩
          · rw [(maybeQueueBreakPrompt_other_collections _ session
              session.userId capturedAt npid).2.1]
          · rw [(maybeQueueBreakPrompt_other_collections _ session
              session.userId capturedAt npid).1]
          · rw [(maybeQueueBreakPrompt_other_collections _ session
              session.userId capturedAt npid).2.2.1]
          · rw [(maybeQueueBreakPrompt_other_collections _ session
              session.userId capturedAt npid).2.2.2]

theorem claim_C4_ingest_error_contract_witness :
    ((DB.mk [⟨"fs", "u", 0, none, "active", "Study Session", true,
        "presage"⟩] [] [] [] []).focusSessions.find?
        (fun s => s.sessionId == "fs") =
      some ⟨"fs", "u", 0, none, "active", "Study Session", true,
        "presage"⟩) ∧
    ((0 : ℚ) ≤ 0 ∧ (0 : ℚ) ≤ 1) ∧ ((0 : ℚ) ≤ 1 ∧ (1 : ℚ) ≤ 1) ∧
    ∃ db', ingestFocusSample
        (DB.mk [⟨"fs", "u", 0, none, "active", "Study Session", true,
          "presage"⟩] [] [] [] [])
        "fs" (some 0) (some 1) 5 1 none "smp" "pr" = .ok db' ∧
      db'.focusSamples =
        (DB.mk [⟨"fs", "u", 0, none, "active", "Study Session", true,
          "presage"⟩] [] [] [] []).focusSamples ++
        [⟨"smp", "fs", "u", 5, 0, 1, 1, "presage"⟩] ∧
      db'.focusSessions =
        (DB.mk [⟨"fs", "u", 0, none, "active", "Study Session", true,
          "presage"⟩] [] [] [] []).focusSessions ∧
      db'.pomodoroSessions = [] ∧
      db'.focusReports = [] :=
  ⟨by decide, by norm_num, by norm_num,
    ((((claim_C4_ingest_error_contract
        (DB.mk [⟨"fs", "u", 0, none, "active", "Study Session", true,
          "presage"⟩] [] [] [] [])
        "fs" (some 0) (some 1) 5 1 none "smp" "pr").2
      ⟨"fs", "u", 0, none, "active", "Study Session", true, "presage"⟩
      (by decide)).2 rfl).2 0 1 rfl rfl).2 (by norm_num) (by norm_num)⟩

/-- C6 (ending twice yields the same report): if an end-session call
succeeds and returns report `r₁`, then the sample store is unchanged by
that call, and a second end-session call on the resulting state
succeeds and returns a report equal to `r₁` — the report is a pure
re-aggregation of the same immutable samples. -/
theorem claim_C6_end_twice_same_report (db : DB) (sid : String)
    (t₁ t₂ : ℤ) (db₁ : DB) (r₁ : Report)
    (h₁ : endFocusSession db sid t₁ = .ok (db₁, r₁)) :
    db₁.focusSamples = db.focusSamples ∧
    ∃ db₂, endFocusSession db₁ sid t₂ = .ok (db₂, r₁) := by
  rcases hfind : db.focusSessions.find? (fun s => s.sessionId == sid)
    with - | session
  · simp only [endFocusSession, hfind] at h₁
    exact Except.noConfusion h₁
  · simp only [endFocusSession, hfind] at h₁
    simp only [Except.ok.injEq, Prod.mk.injEq] at h₁
    obtain ⟨hdb, hr⟩ := h₁
    subst hdb
    subst hr
    constructor
    · rfl
    · have hfx : (fun s : FocusSession => s.sessionId == sid)
          ({ session with status := "completed",
                          endedAt := some t₁ }) = true := by
        simpa using List.find?_some hfind
      have hfind' := find?_updateOne (f := fun s =>
        { s with status := "completed", endedAt := some t₁ }) hfind hfx
      simp only [endFocusSession, hfind']
      exact ⟨_, rfl⟩

theorem claim_C6_end_twice_same_report_witness :
    endFocusSession
        (DB.mk [⟨"fs", "u", 0, none, "active", "Study Session", true,
          "presage"⟩] [] [] [] []) "fs" 10 =
      .ok (DB.mk [⟨"fs", "u", 0, some 10, "completed", "Study Session",
          true, "presage"⟩] [] [] []
          [⟨"fs", "u", 10, ⟨0, 0, 0, 0, 0, []⟩⟩],
        ⟨0, 0, 0, 0, 0, []⟩) ∧
    ((DB.mk [⟨"fs", "u", 0, some 10, "completed", "Study Session", true,
        "presage"⟩] [] [] []
        [⟨"fs", "u", 10, ⟨0, 0, 0, 0, 0, []⟩⟩]).focusSamples =
      (DB.mk [⟨"fs", "u", 0, none, "active", "Study Session", true,
        "presage"⟩] [] [] [] []).focusSamples ∧
      ∃ db₂, endFocusSession
          (DB.mk [⟨"fs", "u", 0, some 10, "completed", "Study Session",
            true, "presage"⟩] [] [] []
            [⟨"fs", "u", 10, ⟨0, 0, 0, 0, 0, []⟩⟩]) "fs" 20 =
        .ok (db₂, ⟨0, 0, 0, 0, 0, []⟩)) :=
  ⟨by rfl,
    claim_C6_end_twice_same_report
      (DB.mk [⟨"fs", "u", 0, none, "active", "Study Session", true,
        "presage"⟩] [] [] [] []) "fs" 10 20 _ _ (by rfl)⟩

theorem maxOf_spec (x : ℚ) (xs : List ℚ) :
    maxOf x xs ∈ x :: xs ∧ ∀ y ∈ x :: xs, y ≤ maxOf x xs := by
  induction xs generalizing x with
  | nil => simp [maxOf]
  | cons a as ih =>
    have h := ih (max x a)
    unfold maxOf at h ⊢
    rw [List.foldl_cons]
    constructor
    · rcases List.mem_cons.mp h.1 with hm | hm
      · rw [hm]
        rcases max_choice x a with hx | hx <;> rw [hx]
        · exact List.mem_cons_self x (a :: as)
        · exact List.mem_cons_of_mem x (List.mem_cons_self a as)
      · exact List.mem_cons_of_mem x (List.mem_cons_of_mem a hm)
    · intro y hy
      rcases List.mem_cons.mp hy with rfl | hy
      · exact le_trans (le_max_left y a)
          (h.2 (max y a) (List.mem_cons_self _ as))
      · rcases List.mem_cons.mp hy with rfl | hy
        · exact le_trans (le_max_right x y)
            (h.2 (max x y) (List.mem_cons_self _ as))
        · exact h.2 y (List.mem_cons_of_mem _ hy)

theorem minOf_spec (x : ℚ) (xs : List ℚ) :
    minOf x xs ∈ x :: xs ∧ ∀ y ∈ x :: xs, minOf x xs ≤ y := by
  induction xs generalizing x with
  | nil => simp [minOf]
  | cons a as ih =>
    have h := ih (min x a)
    unfold minOf at h ⊢
    rw [List.foldl_cons]
    constructor
    · rcases List.mem_cons.mp h.1 with hm | hm
      · rw [hm]
        rcases min_choice x a with hx | hx <;> rw [hx]
        · exact List.mem_cons_self x (a :: as)
        · exact List.mem_cons_of_mem x (List.mem_cons_self a as)
      · exact List.mem_cons_of_mem x (List.mem_cons_of_mem a hm)
    · intro y hy
      rcases List.mem_cons.mp hy with rfl | hy
      · exact le_trans (h.2 (min y a) (List.mem_cons_self _ as))
          (min_le_left y a)
      · rcases List.mem_cons.mp hy with rfl | hy
        · exact le_trans (h.2 (min x y) (List.mem_cons_self _ as))
            (min_le_right x y)
        · exact h.2 y (List.mem_cons_of_mem _ hy)

/-- C7 counterexample: the report does not return the peak stress
itself — it rounds it to 3 decimals (and likewise the lowest focus).
For a single sample with stress 0.7777 and focus 0.4444, the peak
stress of the input is 0.7777 and the lowest focus 0.4444, but the
report fields are 0.778 and 0.444. -/
theorem claim_C7_peak_rounded_counterexample :
    (buildReport [⟨"smp", "fs", "u", 0, 4444 / 10000, 7777 / 10000, 1,
        "presage"⟩]).peakStress = 778 / 1000 ∧
    ((778 : ℚ) / 1000 ≠ 7777 / 10000) ∧
    (buildReport [⟨"smp", "fs", "u", 0, 4444 / 10000, 7777 / 10000, 1,
        "presage"⟩]).lowestFocus = 444 / 1000 ∧
    ((444 : ℚ) / 1000 ≠ 4444 / 10000) := by
  refine ⟨?_, by norm_num, ?_, by norm_num⟩ <;>
    norm_num [buildReport, maxOf, minOf, round3, roundHalfEven]

/-- C7 (amended: peak stress and lowest focus are also rounded to
3 decimals): `buildReport` is a pure total function; on the empty list
it returns sample count 0, all-zero statistics and an empty series; on
a non-empty list it returns the sample count, the averages of focus and
stress rounded to 3 decimals, the peak stress rounded to 3 decimals,
the lowest focus rounded to 3 decimals, and the full ordered series of
(timestamp, focus, stress) points. -/
theorem claim_C7_build_report (samples : List FocusSample) :
    buildReport [] = ⟨0, 0, 0, 0, 0, []⟩ ∧
    (samples ≠ [] →
      (buildReport samples).sampleCount = samples.length ∧
      (buildReport samples).averageFocus =
        round3 ((samples.map (·.focusScore)).sum /
          (samples.length : ℚ)) ∧
      (buildReport samples).averageStress =
        round3 ((samples.map (·.stressScore)).sum /
          (samples.length : ℚ)) ∧
      (∃ smax ∈ samples,
        (buildReport samples).peakStress = round3 smax.stressScore ∧
        ∀ q ∈ samples, q.stressScore ≤ smax.stressScore) ∧
      (∃ smin ∈ samples,
        (buildReport samples).lowestFocus = round3 smin.focusScore ∧
        ∀ q ∈ samples, smin.focusScore ≤ q.focusScore) ∧
      (buildReport samples).graphPoints =
        samples.map fun x =>
          ⟨x.capturedAt, x.focusScore, x.stressScore⟩) := by
  refine ⟨rfl, ?_⟩
  intro hne
  match samples with
  | [] => exact absurd rfl hne
  | s :: rest =>
    refine ⟨rfl, rfl, rfl, ?_, ?_, rfl⟩
    · obtain ⟨hmem, hub⟩ := maxOf_spec s.stressScore
        (rest.map (·.stressScore))
      have hmem' : maxOf s.stressScore (rest.map (·.stressScore)) ∈
          (s :: rest).map (·.stressScore) := by
        rw [List.map_cons]
        exact hmem
      obtain ⟨smax, hsmax, heq⟩ := List.mem_map.mp hmem'
      refine ⟨smax, hsmax, ?_, ?_⟩
      · show round3 (maxOf s.stressScore (rest.map (·.stressScore))) =
          round3 smax.stressScore
        rw [heq]
      · intro q hq
        rw [heq]
        refine hub q.stressScore ?_
        rcases List.mem_cons.mp hq with rfl | hq'
        · exact List.mem_cons_self _ _
        · exact List.mem_cons_of_mem _ (List.mem_map_of_mem _ hq')
    · obtain ⟨hmem, hlb⟩ := minOf_spec s.focusScore
        (rest.map (·.focusScore))
      have hmem' : minOf s.focusScore (rest.map (·.focusScore)) ∈
          (s :: rest).map (·.focusScore) := by
        rw [List.map_cons]
        exact hmem
      obtain ⟨smin, hsmin, heq⟩ := List.mem_map.mp hmem'
      refine ⟨smin, hsmin, ?_, ?_⟩
      · show round3 (minOf s.focusScore (rest.map (·.focusScore))) =
          round3 smin.focusScore
        rw [heq]
      · intro q hq
        rw [heq]
        refine hlb q.focusScore ?_
        rcases List.mem_cons.mp hq with rfl | hq'
        · exact List.mem_cons_self _ _
        · exact List.mem_cons_of_mem _ (List.mem_map_of_mem _ hq')

theorem claim_C7_build_report_witness :
    (([⟨"smp", "fs", "u", 0, 1, 1, 1, "presage"⟩] :
        List FocusSample) ≠ []) ∧
    ((buildReport [⟨"smp", "fs", "u", 0, 1, 1, 1, "presage"⟩]).sampleCount
        = ([⟨"smp", "fs", "u", 0, 1, 1, 1, "presage"⟩] :
          List FocusSample).length ∧
      (buildReport [⟨"smp", "fs", "u", 0, 1, 1, 1,
          "presage"⟩]).averageFocus =
        round3 ((([⟨"smp", "fs", "u", 0, 1, 1, 1, "presage"⟩] :
          List FocusSample).map (·.focusScore)).sum / (1 : ℚ)) ∧
      (buildReport [⟨"smp", "fs", "u", 0, 1, 1, 1,
          "presage"⟩]).averageStress =
        round3 ((([⟨"smp", "fs", "u", 0, 1, 1, 1, "presage"⟩] :
          List FocusSample).map (·.stressScore)).sum / (1 : ℚ)) ∧
      (∃ smax ∈ ([⟨"smp", "fs", "u", 0, 1, 1, 1, "presage"⟩] :
          List FocusSample),
        (buildReport [⟨"smp", "fs", "u", 0, 1, 1, 1,
          "presage"⟩]).peakStress = round3 smax.stressScore ∧
        ∀ q ∈ ([⟨"smp", "fs", "u", 0, 1, 1, 1, "presage"⟩] :
          List FocusSample), q.stressScore ≤ smax.stressScore) ∧
      (∃ smin ∈ ([⟨"smp", "fs", "u", 0, 1, 1, 1, "presage"⟩] :
          List FocusSample),
        (buildReport [⟨"smp", "fs", "u", 0, 1, 1, 1,
          "presage"⟩]).lowestFocus = round3 smin.focusScore ∧
        ∀ q ∈ ([⟨"smp", "fs", "u", 0, 1, 1, 1, "presage"⟩] :
          List FocusSample), smin.focusScore ≤ q.focusScore) ∧
      (buildReport [⟨"smp", "fs", "u", 0, 1, 1, 1,
          "presage"⟩]).graphPoints =
        ([⟨"smp", "fs", "u", 0, 1, 1, 1, "presage"⟩] :
          List FocusSample).map fun x =>
            ⟨x.capturedAt, x.focusScore, x.stressScore⟩) :=
  ⟨by simp,
    (claim_C7_build_report [⟨"smp", "fs", "u", 0, 1, 1, 1,
      "presage"⟩]).2 (by simp)⟩

/-- C2 (sustained-stress trigger, evaluated on the test
input): on a prompts-allowed session with no prior prompt and no prior
samples, ingesting stress 0.9 at T = 0 and then stress 0.9 at
T+10:01 = 601s leaves ZERO unresolved sustained-high-stress prompts
after the second ingestion, not one, because the
window filter `captured_at ≥ now − 10min` excludes the first sample
(captured 601s ago) and the only remaining high-stress sample is 0s
old.  Ingesting the second sample at exactly T+10:00 = 600s instead
does create exactly one unresolved prompt. -/
theorem claim_C2_sustained_stress_trigger_eval :
    ingestFocusSample
        (DB.mk [⟨"fs", "u", 0, none, "active", "Study Session", true,
          "presage"⟩] [] [] [] [])
        "fs" (some (1 / 2)) (some (9 / 10)) 0 1 none "smp1" "pr1" =
      .ok (DB.mk [⟨"fs", "u", 0, none, "active", "Study Session", true,
          "presage"⟩]
        [⟨"smp1", "fs", "u", 0, 1 / 2, 9 / 10, 1, "presage"⟩]
        [] [] []) ∧
    unresolvedCount
      (DB.mk [⟨"fs", "u", 0, none, "active", "Study Session", true,
          "presage"⟩]
        [⟨"smp1", "fs", "u", 0, 1 / 2, 9 / 10, 1, "presage"⟩] [] [] [])
      "u" "fs" "HIGH_STRESS_BREAK" = 0 ∧
    ingestFocusSample
        (DB.mk [⟨"fs", "u", 0, none, "active", "Study Session", true,
          "presage"⟩]
          [⟨"smp1", "fs", "u", 0, 1 / 2, 9 / 10, 1, "presage"⟩] [] [] [])
        "fs" (some (1 / 2)) (some (9 / 10)) 601 1 none "smp2" "pr2" =
      .ok (DB.mk [⟨"fs", "u", 0, none, "active", "Study Session", true,
          "presage"⟩]
        [⟨"smp1", "fs", "u", 0, 1 / 2, 9 / 10, 1, "presage"⟩,
         ⟨"smp2", "fs", "u", 601, 1 / 2, 9 / 10, 1, "presage"⟩]
        [] [] []) ∧
    unresolvedCount
      (DB.mk [⟨"fs", "u", 0, none, "active", "Study Session", true,
          "presage"⟩]
        [⟨"smp1", "fs", "u", 0, 1 / 2, 9 / 10, 1, "presage"⟩,
         ⟨"smp2", "fs", "u", 601, 1 / 2, 9 / 10, 1, "presage"⟩] [] [] [])
      "u" "fs" "HIGH_STRESS_BREAK" = 0 ∧
    ingestFocusSample
        (DB.mk [⟨"fs", "u", 0, none, "active", "Study Session", true,
          "presage"⟩]
          [⟨"smp1", "fs", "u", 0, 1 / 2, 9 / 10, 1, "presage"⟩] [] [] [])
        "fs" (some (1 / 2)) (some (9 / 10)) 600 1 none "smp3" "pr3" =
      .ok (DB.mk [⟨"fs", "u", 0, none, "active", "Study Session", true,
          "presage"⟩]
        [⟨"smp1", "fs", "u", 0, 1 / 2, 9 / 10, 1, "presage"⟩,
         ⟨"smp3", "fs", "u", 600, 1 / 2, 9 / 10, 1, "presage"⟩]
        [newHighStressPrompt "pr3" "u" "fs" 600] [] []) ∧
    unresolvedCount
      (DB.mk [⟨"fs", "u", 0, none, "active", "Study Session", true,
          "presage"⟩]
        [⟨"smp1", "fs", "u", 0, 1 / 2, 9 / 10, 1, "presage"⟩,
         ⟨"smp3", "fs", "u", 600, 1 / 2, 9 / 10, 1, "presage"⟩]
        [newHighStressPrompt "pr3" "u" "fs" 600] [] [])
      "u" "fs" "HIGH_STRESS_BREAK" = 1 := by
  refine ⟨?_, by decide, ?_, by decide, ?_, by decide⟩ <;>
    norm_num [ingestFocusSample, maybeQueueBreakPrompt, findMinByKey,
      highStressInWindow, HIGH_STRESS_THRESHOLD, PROMPT_AFTER_MINUTES,
      List.find?, List.filter, unresolvedPromptOfType]
